import Mathlib

/-!
Shallow embedding of the ledger-consistency core of the repository
(src/blockchain/src/blockchain/{block,chain,transaction,world_state}.rs).

Modelling conventions:

* Rust `u128` values are `Nat`; the checked operations carry the explicit
  `2 ^ 128` bound, and the single unchecked `+=` in the source is modelled
  as addition modulo `2 ^ 128` (release-build wrapping semantics).
* Rust `String` hash values are modelled as their list of character codes
  (`List Nat`); `byte_vector_to_string` maps every byte to the character
  with that code point, which on byte lists is exactly the identity on the
  code-point list.
* The Blake2b hasher is modelled symbolically: a block of calls
  `update c₁; …; update cₙ; finalize` is `digest [c₁, …, cₙ]` for a
  parameter `digest : List (List Nat) → List Nat`. Theorems that need
  collision-freedom take `Function.Injective digest` as an explicit
  hypothesis; `digestW` below is a concrete injective instantiation used
  by the closed-form witnesses.
* `HashMap String Account` is an association list with unique keys;
  `get_account_by_id_mut` followed by an assignment to `.tokens` is the
  update `set_account_tokens`.
* `&mut self` methods become state-passing functions returning
  `result × new-state`; every early `return Err(..)` in the source happens
  before any mutation on its path, and the model returns the state reached
  at that point.
-/

/-- Modelled from the spec: the file defining `Account` and `AccountType` is
not under src/ (only its users are). Per the spec, `AccountType` is a closed
set with at least `User`. -/
inductive AccountType where
  | User
deriving DecidableEq, Repr

/-- Modelled from the spec: an Account is `{ kind: AccountType, tokens:
unsigned 128-bit }`, and a freshly created account has zero balance. -/
structure Account where
  account_type : AccountType
  tokens : Nat
deriving DecidableEq, Repr

/-- Modelled from the spec: `Account::new` (called by
`WorldState::create_account`) yields an account of the given kind with zero
tokens. -/
def Account.new (account_type : AccountType) : Account :=
  { account_type := account_type, tokens := 0 }

/-- Model of `TransactionData` from transaction.rs: the tagged union of operations. -/
inductive TransactionData where
  | CreateUserAccount (account : String)
  | ChangeStoreValue (key : String) (value : String)
  | TransferTokens (to_acc : String) (amount : Nat)
  | CreateTokens (receiver : String) (amount : Nat)
deriving DecidableEq, Repr

/-- Model of `Transaction` from transaction.rs. `created_at : SystemTime` is a
timestamp; it is modelled as a `Nat` supplied by the caller (the clock
reading taken by `Transaction::new`). -/
structure Transaction where
  nonce : Nat
  from_acc : String
  created_at : Nat
  record : TransactionData
  signature : Option String
deriving DecidableEq, Repr

/-- Model of `Transaction::new`: builds an unsigned transaction; the source stamps
`created_at = SystemTime::now()`, modelled as the explicit `created_at`
clock argument. -/
def Transaction.new (from_acc : String) (transaction_data : TransactionData)
    (nonce : Nat) (created_at : Nat) : Transaction :=
  { nonce := nonce, from_acc := from_acc, created_at := created_at,
    record := transaction_data, signature := none }

/-- Model of `Block` from block.rs. Hash strings are lists of character codes. -/
structure Block where
  transactions : List Transaction
  prev_hash : Option (List Nat)
  hash : Option (List Nat)
  nonce : Nat
deriving DecidableEq, Repr

/-- Model of `Block::new`: empty transaction list, no hash, nonce 0. -/
def Block.new (prev_hash : Option (List Nat)) : Block :=
  { nonce := 0, hash := none, prev_hash := prev_hash, transactions := [] }

/-- The world state (accounts map): `HashMap<String, Account>` as an
association list with unique keys. -/
abbrev Accounts := List (String × Account)

/-- Model of `WorldState::get_user_ids`. -/
def get_user_ids (world_state : Accounts) : List String :=
  world_state.map (fun p => p.1)

/-- Model of `WorldState::get_account_by_id`: lookup in the accounts map. -/
def get_account_by_id (world_state : Accounts) (id : String) : Option Account :=
  match world_state with
  | [] => none
  | (k, a) :: rest => if k = id then some a else get_account_by_id rest id

/-- Model of `WorldState::get_account_by_id_mut` followed by an assignment to the
`.tokens` field of the returned account: update the balance at `id`. -/
def set_account_tokens (world_state : Accounts) (id : String) (v : Nat) : Accounts :=
  world_state.map (fun p => if p.1 = id then (p.1, { p.2 with tokens := v }) else p)

/-- Model of `WorldState::create_account`: reject an existing id, otherwise insert a
fresh zero-balance account. -/
def create_account (world_state : Accounts) (id : String)
    (account_type : AccountType) : Except String Unit × Accounts :=
  if !((get_user_ids world_state).contains id) then
    (Except.ok (), (id, Account.new account_type) :: world_state)
  else
    (Except.error "User already exists! (Code: 934823094)", world_state)

/-- The `u128::checked_add` of the source: `none` exactly when the sum
leaves the 128-bit range. -/
def checked_add (a b : Nat) : Option Nat :=
  if a + b < 2 ^ 128 then some (a + b) else none

/-- The `u128::checked_sub` of the source: `none` exactly on underflow. -/
def checked_sub (a b : Nat) : Option Nat :=
  if b ≤ a then some (a - b) else none

/-- Model of `Transaction::execute` from transaction.rs, state-passing. Note the
`CreateTokens` arm: the source performs the unchecked `account.tokens +=
*amount`, modelled as wrapping addition modulo `2 ^ 128`. -/
def Transaction.execute (tx : Transaction) (world_state : Accounts)
    (is_initial : Bool) : Except String Unit × Accounts :=
  -- Check if sending user does exist (source returns early when the sender
  -- is missing and the block is not the initial one).
  if (get_account_by_id world_state tx.from_acc).isNone && !is_initial then
    (Except.error "Account does not exist (Code: 93482390)", world_state)
  else
    match tx.record with
    | TransactionData.CreateUserAccount account =>
      create_account world_state account AccountType.User
    | TransactionData.CreateTokens receiver amount =>
      if !is_initial then
        (Except.error "Token creation is only available on initial creation (Code: 2394233)",
          world_state)
      else
        match get_account_by_id world_state receiver with
        | some account =>
          -- source: `account.tokens += *amount` (unchecked addition)
          (Except.ok (),
            set_account_tokens world_state receiver ((account.tokens + amount) % 2 ^ 128))
        | none =>
          (Except.error "Receiver Account does not exist (Code: 23482309)", world_state)
    | TransactionData.TransferTokens to_acc amount =>
      match get_account_by_id world_state to_acc with
      | none =>
        (Except.error "Receiver Account does not exist! (Code: 3242342380)", world_state)
      | some recv =>
        match get_account_by_id world_state tx.from_acc with
        | none =>
          (Except.error "That account does not exist! (Code: 23423923)", world_state)
        | some sender =>
          let balance_recv_new := checked_add recv.tokens amount
          let balance_sender_new := checked_sub sender.tokens amount
          match balance_recv_new, balance_sender_new with
          | some br, some bs =>
            -- source writes the sender's new balance first, then the
            -- receiver's new balance
            (Except.ok (),
              set_account_tokens (set_account_tokens world_state tx.from_acc bs) to_acc br)
          | _, _ =>
            (Except.error "Overspent or Arithmetic error (Code: 48239084203)", world_state)
    | TransactionData.ChangeStoreValue _ _ =>
      (Except.error "Unknown Transaction type (not implemented) (Code: 487289724389)",
        world_state)

/-- Model of `Transaction::is_signed`. -/
def Transaction.is_signed (tx : Transaction) : Bool :=
  tx.signature.isSome

/-- Model of `Transaction::check_signature`: the stub of the source — an unsigned
transaction returns `false` immediately, and the signed case is an
unimplemented `false` as well. -/
def Transaction.check_signature (tx : Transaction) : Bool :=
  if !tx.is_signed then
    false
  else
    -- @TODO check signature (left unimplemented in the source)
    false

/-- The length-prefixed character-code list of a string: the model of the
`Debug` rendering of a `String` inside a `format!` tuple (the length prefix
keeps concatenations unambiguous, as the quoting does in Rust). -/
def encStr (s : String) : List Nat :=
  s.length :: s.toList.map Char.toNat

/-- Injective rendering of a `TransactionData` value, modelling its `Debug`
output; tags separate the variants and the `amount` field is kept as the
final element of its variant's encoding. -/
def encTxData : TransactionData → List Nat
  | TransactionData.CreateUserAccount account => 0 :: encStr account
  | TransactionData.ChangeStoreValue key value => 1 :: (encStr key ++ encStr value)
  | TransactionData.TransferTokens to_acc amount => 2 :: (encStr to_acc ++ [amount])
  | TransactionData.CreateTokens receiver amount => 3 :: (encStr receiver ++ [amount])

/-- The byte string hashed by `Transaction::calculate_hash`: the model of
`format!("{:?}", (created_at, record, from, nonce))`. -/
def txEncode (tx : Transaction) : List Nat :=
  tx.created_at :: (encTxData tx.record ++ (encStr tx.from_acc ++ [tx.nonce]))

/-- Model of `Transaction::calculate_hash`: one `update` with the rendered tuple,
then `finalize`. -/
def Transaction.calculate_hash (digest : List (List Nat) → List Nat)
    (tx : Transaction) : List Nat :=
  digest [txEncode tx]

/-- The model of `format!("{:?}", (prev_hash, nonce))` fed to the block
hasher after the transaction hashes. -/
def encPrevNonce : Option (List Nat) → Nat → List Nat
  | none, n => 0 :: [n]
  | some h, n => 1 :: (h.length :: (h ++ [n]))

/-- Model of `Block::calculate_hash`: one `update` per transaction hash, in order,
then one `update` with the rendered `(prev_hash, nonce)` pair, then
`finalize`. -/
def Block.calculate_hash (digest : List (List Nat) → List Nat) (b : Block) : List Nat :=
  digest (b.transactions.map (Transaction.calculate_hash digest) ++
    [encPrevNonce b.prev_hash b.nonce])

/-- Model of `byte_vector_to_string` from block.rs: every byte becomes the character
with that code point. On the code-point-list model of strings this is the
identity on the byte list. -/
def byte_vector_to_string (arr : List Nat) : List Nat :=
  arr

/-- Model of `Block::update_hash`: store the rendered recomputed hash. -/
def Block.update_hash (digest : List (List Nat) → List Nat) (b : Block) : Block :=
  { b with hash := some (byte_vector_to_string (Block.calculate_hash digest b)) }

/-- Model of `Block::verify_own_hash`: the hash field is set and equals the rendered
recomputed hash (`hash.is_some() && hash.unwrap().eq(..)` in the source). -/
def Block.verify_own_hash (digest : List (List Nat) → List Nat) (b : Block) : Bool :=
  match b.hash with
  | some h => h == byte_vector_to_string (Block.calculate_hash digest b)
  | none => false

/-- Model of `Block::set_nonce`: set the nonce, then recompute the stored hash. -/
def Block.set_nonce (digest : List (List Nat) → List Nat) (b : Block) (nonce : Nat) : Block :=
  Block.update_hash digest { b with nonce := nonce }

/-- Model of `Block::add_transaction`: append, then recompute the stored hash. -/
def Block.add_transaction (digest : List (List Nat) → List Nat) (b : Block)
    (transaction : Transaction) : Block :=
  Block.update_hash digest { b with transactions := b.transactions ++ [transaction] }

/-- Model of `Block::get_transaction_count`. -/
def Block.get_transaction_count (b : Block) : Nat :=
  b.transactions.length

/-- Model of `Blockchain` from chain.rs. -/
structure Blockchain where
  blocks : List Block
  accounts : Accounts
  pending_transactions : List Transaction
deriving DecidableEq, Repr

/-- Model of `Blockchain::new`: empty chain, empty store. -/
def Blockchain.new : Blockchain :=
  { blocks := [], accounts := [], pending_transactions := [] }

/-- Model of `Blockchain::len`. -/
def Blockchain.len (bc : Blockchain) : Nat :=
  bc.blocks.length

/-- Model of `Blockchain::get_last_block_hash`: `None` on an empty chain, otherwise
the stored hash of the last block. -/
def Blockchain.get_last_block_hash (bc : Blockchain) : Option (List Nat) :=
  match bc.blocks.getLast? with
  | none => none
  | some b => b.hash

/-- The `for (i, transaction) in block.transactions.iter().enumerate()` loop
of `append_block`: execute in order against the live store and stop at the
first failure, reporting its 0-based index and cause. -/
def executeTransactions (is_genesis : Bool) :
    List Transaction → Nat → Accounts → Except (Nat × String) Accounts
  | [], _, st => Except.ok st
  | t :: ts, i, st =>
    match Transaction.execute t st is_genesis with
    | (Except.ok _, st') => executeTransactions is_genesis ts (i + 1) st'
    | (Except.error e, _) => Except.error (i, e)

/-- Model of `Blockchain::append_block` from chain.rs: verify the block's own hash,
verify linkage to the chain head, require at least one transaction, snapshot
the store, execute the transactions in order, restore the snapshot and
reject on the first failure, append on success. -/
def Blockchain.append_block (digest : List (List Nat) → List Nat)
    (bc : Blockchain) (block : Block) : Except String Unit × Blockchain :=
  let is_genesis := bc.len == 0
  if !(Block.verify_own_hash digest block) then
    (Except.error "The block hash is mismatching! (Code: 93820394)", bc)
  else if !(block.prev_hash == bc.get_last_block_hash) then
    (Except.error "The new block has to point to the previous block (Code: 3948230)", bc)
  else if block.get_transaction_count == 0 then
    (Except.error "There has to be at least one transaction inside the block! (Code: 9482930)",
      bc)
  else
    -- snapshot for rollback
    let old_state := bc.accounts
    match executeTransactions is_genesis block.transactions 0 bc.accounts with
    | Except.error (i, err) =>
      (Except.error ("Could not execute transaction " ++ toString (i + 1) ++ " due to `" ++
        err ++ "`. Rolling back (Code: 38203984)"),
        { bc with accounts := old_state })
    | Except.ok st =>
      (Except.ok (), { bc with accounts := st, blocks := bc.blocks ++ [block] })

/-- The signature loop of `check_validity` over one block's transactions:
the first signed transaction whose signature fails to verify is reported
with its 1-based index and the block's 1-based number. -/
def checkTransactionSignatures (block_num : Nat) :
    List Transaction → Nat → Except String Unit
  | [], _ => Except.ok ()
  | t :: ts, transaction_num =>
    if t.is_signed && !t.check_signature then
      Except.error ("Transaction #" ++ toString (transaction_num + 1) ++ " for Block #" ++
        toString (block_num + 1) ++ " has an invalid signature (Code: 4398239048)")
    else
      checkTransactionSignatures block_num ts (transaction_num + 1)

/-- A rendered hash embedded into an error message. -/
def renderHash (h : List Nat) : String :=
  String.mk (h.map Char.ofNat)

/-- The per-block linkage portion of `check_validity` (the genesis and
`prev_hash` checks). `prev` is `blocks[block_num - 1]` when `block_num > 0`.
A `none` result models a panic: the source unwraps
`blocks[block_num - 1].hash` unconditionally before comparing. -/
def linkageCheck (prev : Option Block) (block_num : Nat) (b : Block) :
    Option (Except String Unit) :=
  if block_num = 0 then
    if b.prev_hash.isSome then
      some (Except.error "The genesis block has a previous hash set which it shouldn't Code :394823098")
    else
      some (Except.ok ())
  else
    match b.prev_hash with
    | none => some (Except.error ("Block #" ++ toString (block_num + 1) ++ " has no previous hash set"))
    | some prev_hash_proposed =>
      match prev with
      | none => none
      | some pb =>
        match pb.hash with
        | none => none  -- the source's `.unwrap()` on `blocks[block_num - 1].hash`
        | some prev_hash_actual =>
          if !(some prev_hash_proposed == pb.hash) then
            some (Except.error ("Block #" ++ toString block_num ++
              " is not connected to previous block (Hashes do not match. Should be `" ++
              renderHash prev_hash_proposed ++ "` but is `" ++ renderHash prev_hash_actual ++ "`)"))
          else
            some (Except.ok ())

/-- The block scan of `check_validity`: per block, in order — own-hash
check, linkage check, signature loop — stopping at the first failure.
`none` models a panic inside the linkage check. -/
def checkValidityGo (digest : List (List Nat) → List Nat) :
    Option Block → Nat → List Block → Option (Except String Unit)
  | _, _, [] => some (Except.ok ())
  | prev, block_num, b :: rest =>
    if !(Block.verify_own_hash digest b) then
      some (Except.error ("Stored hash for Block #" ++ toString (block_num + 1) ++
        " does not match calculated hash (Code: 665234234)"))
    else
      match linkageCheck prev block_num b with
      | none => none
      | some (Except.error e) => some (Except.error e)
      | some (Except.ok _) =>
        match checkTransactionSignatures block_num b.transactions 0 with
        | Except.error e => some (Except.error e)
        | Except.ok _ => checkValidityGo digest (some b) (block_num + 1) rest

/-- Model of `Blockchain::check_validity` from chain.rs; `none` models a panic (which
the theorems below show unreachable). -/
def Blockchain.check_validity (digest : List (List Nat) → List Nat)
    (bc : Blockchain) : Option (Except String Unit) :=
  checkValidityGo digest none 0 bc.blocks

/-- The chains reachable from `Blockchain::new` through successful
`append_block` calls. -/
inductive Reachable (digest : List (List Nat) → List Nat) : Blockchain → Prop
  | new : Reachable digest Blockchain.new
  | append (bc : Blockchain) (b : Block)
      (hok : (Blockchain.append_block digest bc b).1 = Except.ok ())
      (hr : Reachable digest bc) :
      Reachable digest ((Blockchain.append_block digest bc b).2)

/-- The in-place tamper of the "attack" scenarios: overwrite the `amount`
field of a `TransferTokens` or `CreateTokens` record, leaving every other
variant (and every other field) unchanged. -/
def setAmount (a : Nat) : TransactionData → TransactionData
  | TransactionData.TransferTokens to_acc _ => TransactionData.TransferTokens to_acc a
  | TransactionData.CreateTokens receiver _ => TransactionData.CreateTokens receiver a
  | r => r

/-- The amount carried by a record, when it has one. -/
def amountOf : TransactionData → Option Nat
  | TransactionData.TransferTokens _ amount => some amount
  | TransactionData.CreateTokens _ amount => some amount
  | _ => none

/-- Tamper a transaction in place: change the amount inside its record,
keeping the stored signature and every other field. -/
def tamperTx (a : Nat) (tx : Transaction) : Transaction :=
  { tx with record := setAmount a tx.record }

/-- Tamper transaction `j` of block `b` in place (no hash recomputation). -/
def tamperBlock (b : Block) (j : Nat) (a : Nat) : Block :=
  { b with transactions :=
      match b.transactions[j]? with
      | some t => b.transactions.set j (tamperTx a t)
      | none => b.transactions }

/-- Tamper transaction `j` of block `k` of the chain in place. -/
def tamperChain (bc : Blockchain) (k j : Nat) (a : Nat) : Blockchain :=
  { bc with blocks :=
      match bc.blocks[k]? with
      | some b => bc.blocks.set k (tamperBlock b j a)
      | none => bc.blocks }

/-- Recompute (via `update_hash`) the stored hash of block `k` in place —
the second step of the second attack scenario. -/
def updateHashAt (digest : List (List Nat) → List Nat) (bc : Blockchain) (k : Nat) :
    Blockchain :=
  { bc with blocks :=
      match bc.blocks[k]? with
      | some b => bc.blocks.set k (Block.update_hash digest b)
      | none => bc.blocks }

/-- Length-prefix-and-join of a chunk list: the spine of the concrete
witness digest. -/
def lpJoin (chunks : List (List Nat)) : List Nat :=
  (chunks.map (fun c => c.length :: c)).flatten

/-- A concrete collision-free digest used to instantiate the symbolic
hasher in closed-form witnesses: the chunk count followed by the
length-prefixed chunks. -/
def digestW (chunks : List (List Nat)) : List Nat :=
  chunks.length :: lpJoin chunks

/-- A transaction whose record is the unimplemented `ChangeStoreValue`
variant, used to exercise the rollback path. -/
def txBadW : Transaction :=
  Transaction.new "alice" (TransactionData.ChangeStoreValue "k" "v") 0 0

/-- A structurally well-formed first block containing only `txBadW`. -/
def blockBadW : Block :=
  Block.add_transaction digestW (Block.new none) txBadW

/-- The genesis block of the end-to-end scenario: create `alice` and `bob`
and mint 100,000,000 tokens for each. -/
def genesisW : Block :=
  ((((Block.new none).add_transaction digestW
      (Transaction.new "alice" (TransactionData.CreateUserAccount "alice") 0 10)).add_transaction
      digestW
      (Transaction.new "alice" (TransactionData.CreateTokens "alice" 100000000) 0 11)).add_transaction
      digestW
      (Transaction.new "bob" (TransactionData.CreateUserAccount "bob") 0 12)).add_transaction
      digestW
      (Transaction.new "bob" (TransactionData.CreateTokens "bob" 100000000) 0 13)

/-- The chain after appending the genesis block. -/
def bcW1 : Blockchain :=
  (Blockchain.append_block digestW Blockchain.new genesisW).2

/-- The second block of the scenario: `alice` transfers one token to `bob`. -/
def block2W : Block :=
  (Block.new bcW1.get_last_block_hash).add_transaction digestW
    (Transaction.new "alice" (TransactionData.TransferTokens "bob" 1) 0 20)

/-- The valid two-block chain of the end-to-end scenario. -/
def bcW2 : Blockchain :=
  (Blockchain.append_block digestW bcW1 block2W).2

/-- A non-first block attempting to mint tokens. -/
def blockMintW : Block :=
  (Block.new bcW1.get_last_block_hash).add_transaction digestW
    (Transaction.new "alice" (TransactionData.CreateTokens "alice" 5) 0 30)

/-- A transaction carrying a (necessarily unverifiable) signature. -/
def txSignedW : Transaction :=
  { nonce := 0, from_acc := "alice", created_at := 0,
    record := TransactionData.CreateUserAccount "alice", signature := some "sig" }

/-- A first block whose only transaction is signed. -/
def blockSignedW : Block :=
  (Block.new none).add_transaction digestW txSignedW

/-- The chain obtained by appending the signed block (signatures are not
checked by `append_block`, so the append succeeds). -/
def bcSignedW : Blockchain :=
  (Blockchain.append_block digestW Blockchain.new blockSignedW).2

/-- The hash-and-linkage half of the audit as a boolean predicate (the
hypothesis "the chain otherwise passes the hash and linkage checks" of the
signature-audit claim): block 0 points nowhere, every later block points to
the stored hash of its set predecessor. `prev` and `i` play the same role
as in `checkValidityGo`. -/
def linksFromB : Option Block → Nat → List Block → Bool
  | _, _, [] => true
  | prev, i, b :: rest =>
    (if i = 0 then
        decide (b.prev_hash = none)
      else
        match prev with
        | some pb => decide (b.prev_hash = pb.hash) && !(decide (pb.hash = none))
        | none => false) &&
      linksFromB (some b) (i + 1) rest

/-- The signature-only scan of the audit: the first failing signature check
over the blocks, in order (with `check_signature` identically false this is
the first signed transaction). -/
def sigScanBlocks : Nat → List Block → Except String Unit
  | _, [] => Except.ok ()
  | i, b :: rest =>
    match checkTransactionSignatures i b.transactions 0 with
    | Except.error e => Except.error e
    | Except.ok _ => sigScanBlocks (i + 1) rest

/-! ### Helper lemmas about the accounts map -/

theorem get_account_by_id_set_self (ws : Accounts) (id : String) (v : Nat)
    (acc : Account) (h : get_account_by_id ws id = some acc) :
    get_account_by_id (set_account_tokens ws id v) id = some { acc with tokens := v } := by
  induction ws with
  | nil => simp [get_account_by_id] at h
  | cons p rest ih =>
    obtain ⟨k, a⟩ := p
    simp only [set_account_tokens, List.map_cons]
    by_cases hk : k = id
    · subst hk
      have h' : a = acc := by simpa [get_account_by_id] using h
      subst h'
      rw [if_pos (rfl : (k, a).1 = k)]
      simp [get_account_by_id]
    · simp only [get_account_by_id, if_neg hk] at h
      rw [if_neg (hk : ¬ (k, a).1 = id)]
      simp only [get_account_by_id, if_neg hk]
      exact ih h

theorem get_account_by_id_set_ne (ws : Accounts) (id id' : String) (v : Nat)
    (hne : id' ≠ id) :
    get_account_by_id (set_account_tokens ws id v) id' = get_account_by_id ws id' := by
  induction ws with
  | nil => simp [set_account_tokens, get_account_by_id]
  | cons p rest ih =>
    obtain ⟨k, a⟩ := p
    simp only [set_account_tokens, List.map_cons]
    by_cases hk : k = id
    · subst hk
      have hk' : k ≠ id' := fun h => hne h.symm
      rw [if_pos (rfl : (k, a).1 = k)]
      simp only [get_account_by_id, if_neg hk']
      exact ih
    · rw [if_neg (hk : ¬ (k, a).1 = id)]
      by_cases hk' : k = id'
      · subst hk'
        simp [get_account_by_id]
      · simp only [get_account_by_id, if_neg hk']
        exact ih

/-! ### C2 — unchecked addition in CreateTokens -/

/-- C2: the claim says a `CreateTokens` whose amount overflows the receiver's
128-bit balance is rejected with an error and never wraps. The source instead
performs the unchecked `account.tokens += *amount`: at the failing input
(receiver `alice` holding `2 ^ 128 - 1` tokens, amount 1, genesis block) the
transaction succeeds and the balance wraps around to 0. -/
theorem c2_create_tokens_unchecked_overflow :
    Transaction.execute (Transaction.new "alice" (TransactionData.CreateTokens "alice" 1) 0 0)
        [("alice", { account_type := AccountType.User, tokens := 2 ^ 128 - 1 })] true
      = (Except.ok (), [("alice", { account_type := AccountType.User, tokens := 0 })]) := by
  rfl

/-! ### C9 — a self-transfer mints tokens -/

/-- C9: executing `TransferTokens{to: a, amount: m}` with sender `a`, when
`a` holds `b` tokens, `m ≤ b` and `b + m` does not overflow, succeeds; the
debited balance is written first and then overwritten by the credited one,
so `a` ends with `b + m` tokens. -/
theorem c9_self_transfer_mints (ws : Accounts) (a : String) (acc : Account)
    (m n t : Nat) (is_initial : Bool)
    (hget : get_account_by_id ws a = some acc)
    (hm : m ≤ acc.tokens) (hov : acc.tokens + m < 2 ^ 128) :
    Transaction.execute
        { nonce := n, from_acc := a, created_at := t,
          record := TransactionData.TransferTokens a m, signature := none } ws is_initial
      = (Except.ok (),
         set_account_tokens (set_account_tokens ws a (acc.tokens - m)) a (acc.tokens + m)) ∧
    get_account_by_id
        (Transaction.execute
          { nonce := n, from_acc := a, created_at := t,
            record := TransactionData.TransferTokens a m, signature := none } ws is_initial).2 a
      = some { acc with tokens := acc.tokens + m } := by
  have hmain : Transaction.execute
      { nonce := n, from_acc := a, created_at := t,
        record := TransactionData.TransferTokens a m, signature := none } ws is_initial
      = (Except.ok (),
         set_account_tokens (set_account_tokens ws a (acc.tokens - m)) a (acc.tokens + m)) := by
    simp only [Transaction.execute, hget, Option.isNone_some, Bool.false_and,
      Bool.false_eq_true, if_false, checked_add, checked_sub, if_pos hm, if_pos hov]
  refine ⟨hmain, ?_⟩
  rw [hmain]
  simpa using
    get_account_by_id_set_self _ a (acc.tokens + m) _
      (get_account_by_id_set_self ws a (acc.tokens - m) acc hget)

/-- Closed-form instance of the self-transfer theorem: one account holding
10 tokens transfers 1 token to itself and ends with 11. -/
theorem c9_self_transfer_mints_witness :
    Transaction.execute
        { nonce := 0, from_acc := "a", created_at := 0,
          record := TransactionData.TransferTokens "a" 1, signature := none }
        [("a", { account_type := AccountType.User, tokens := 10 })] false
      = (Except.ok (),
         set_account_tokens
           (set_account_tokens [("a", { account_type := AccountType.User, tokens := 10 })] "a"
             (10 - 1)) "a" (10 + 1)) ∧
    get_account_by_id
        (Transaction.execute
          { nonce := 0, from_acc := "a", created_at := 0,
            record := TransactionData.TransferTokens "a" 1, signature := none }
          [("a", { account_type := AccountType.User, tokens := 10 })] false).2 "a"
      = some { account_type := AccountType.User, tokens := 10 + 1 } :=
  c9_self_transfer_mints [("a", { account_type := AccountType.User, tokens := 10 })] "a"
    { account_type := AccountType.User, tokens := 10 } 1 0 0 false rfl (by decide) (by decide)

/-! ### C6 — TransferTokens semantics -/

/-- C6 counterexample: the claim promises that on success the sender is
debited by `amount`; a self-transfer (`to = from`) of 1 token from a balance
of 10 succeeds with a final balance of 11, not the debited 9. -/
theorem c6_counterexample_self_transfer :
    Transaction.execute
        { nonce := 0, from_acc := "a", created_at := 0,
          record := TransactionData.TransferTokens "a" 1, signature := none }
        [("a", { account_type := AccountType.User, tokens := 10 })] false
      = (Except.ok (), [("a", { account_type := AccountType.User, tokens := 11 })]) ∧
    (11 : Nat) ≠ 10 - 1 := by
  exact ⟨rfl, by decide⟩

/-- C6 (amended): `TransferTokens{to, amount}` requires both the sender and
`to` to exist; when additionally `to ≠ from`, `amount ≤ sender.tokens`
(checked subtraction) and `to.tokens + amount` does not overflow (checked
addition), both balances are updated as a pair — sender debited, receiver
credited, everyone else untouched; a missing account or a failing checked
operation makes the transaction fail, and every failure leaves the accounts
map unchanged. -/
theorem c6_transfer_tokens_semantics (ws : Accounts) (tx : Transaction)
    (dst : String) (amount : Nat) (is_initial : Bool)
    (hrec : tx.record = TransactionData.TransferTokens dst amount) :
    (∀ e, (Transaction.execute tx ws is_initial).1 = Except.error e →
      (Transaction.execute tx ws is_initial).2 = ws) ∧
    ((get_account_by_id ws dst = none ∨ get_account_by_id ws tx.from_acc = none ∨
      (∃ sender, get_account_by_id ws tx.from_acc = some sender ∧ sender.tokens < amount) ∨
      (∃ recv, get_account_by_id ws dst = some recv ∧ 2 ^ 128 ≤ recv.tokens + amount)) →
      ∃ e, (Transaction.execute tx ws is_initial).1 = Except.error e) ∧
    (∀ recv sender, dst ≠ tx.from_acc →
      get_account_by_id ws dst = some recv →
      get_account_by_id ws tx.from_acc = some sender →
      amount ≤ sender.tokens → recv.tokens + amount < 2 ^ 128 →
      (Transaction.execute tx ws is_initial).1 = Except.ok () ∧
      get_account_by_id (Transaction.execute tx ws is_initial).2 tx.from_acc =
        some { sender with tokens := sender.tokens - amount } ∧
      get_account_by_id (Transaction.execute tx ws is_initial).2 dst =
        some { recv with tokens := recv.tokens + amount } ∧
      (∀ id, id ≠ dst → id ≠ tx.from_acc →
        get_account_by_id (Transaction.execute tx ws is_initial).2 id =
          get_account_by_id ws id)) := by
  refine ⟨?_, ?_, ?_⟩
  · -- every failure leaves the store unchanged
    intro e he
    by_cases h0 : (get_account_by_id ws tx.from_acc).isNone && !is_initial
    · simp [Transaction.execute, hrec, h0]
    · cases hdst : get_account_by_id ws dst with
      | none => simp [Transaction.execute, hrec, h0, hdst]
      | some recv =>
        cases hfrom : get_account_by_id ws tx.from_acc with
        | none =>
          have hinit : is_initial = true := by simpa [hfrom] using h0
          simp [Transaction.execute, hrec, h0, hdst, hfrom, hinit]
        | some sender =>
          cases hca : checked_add recv.tokens amount with
          | none => simp [Transaction.execute, hrec, h0, hdst, hfrom, hca]
          | some br =>
            cases hcs : checked_sub sender.tokens amount with
            | none => simp [Transaction.execute, hrec, h0, hdst, hfrom, hca, hcs]
            | some bs =>
              simp [Transaction.execute, hrec, h0, hdst, hfrom, hca, hcs] at he
  · -- precondition violations fail
    intro hbad
    by_cases h0 : (get_account_by_id ws tx.from_acc).isNone && !is_initial
    · exact ⟨"Account does not exist (Code: 93482390)", by simp [Transaction.execute, hrec, h0]⟩
    · cases hdst : get_account_by_id ws dst with
      | none =>
        exact ⟨"Receiver Account does not exist! (Code: 3242342380)",
          by simp [Transaction.execute, hrec, h0, hdst]⟩
      | some recv =>
        cases hfrom : get_account_by_id ws tx.from_acc with
        | none =>
          have hinit : is_initial = true := by simpa [hfrom] using h0
          exact ⟨"That account does not exist! (Code: 23423923)",
            by simp [Transaction.execute, hrec, h0, hdst, hfrom, hinit]⟩
        | some sender =>
          have hfail : checked_add recv.tokens amount = none ∨
              checked_sub sender.tokens amount = none := by
            rcases hbad with h | h | ⟨s, hs, hlt⟩ | ⟨r, hr, hge⟩
            · rw [h] at hdst; cases hdst
            · rw [h] at hfrom; cases hfrom
            · rw [hs] at hfrom
              cases hfrom
              right
              simp only [checked_sub, if_neg (Nat.not_le.mpr hlt)]
            · rw [hr] at hdst
              cases hdst
              left
              simp only [checked_add, if_neg (Nat.not_lt.mpr hge)]
          rcases hfail with hca | hcs
          · exact ⟨"Overspent or Arithmetic error (Code: 48239084203)",
              by simp [Transaction.execute, hrec, h0, hdst, hfrom, hca]⟩
          · cases hca : checked_add recv.tokens amount with
            | none =>
              exact ⟨"Overspent or Arithmetic error (Code: 48239084203)",
                by simp [Transaction.execute, hrec, h0, hdst, hfrom, hca]⟩
            | some br =>
              exact ⟨"Overspent or Arithmetic error (Code: 48239084203)",
                by simp [Transaction.execute, hrec, h0, hdst, hfrom, hca, hcs]⟩
  · -- the successful pair update
    intro recv sender hne hdst hfrom hsub hadd
    have h0 : ((get_account_by_id ws tx.from_acc).isNone && !is_initial) = false := by
      simp [hfrom]
    have hca : checked_add recv.tokens amount = some (recv.tokens + amount) := by
      simp only [checked_add, if_pos hadd]
    have hcs : checked_sub sender.tokens amount = some (sender.tokens - amount) := by
      simp only [checked_sub, if_pos hsub]
    have hmain : Transaction.execute tx ws is_initial
        = (Except.ok (),
           set_account_tokens (set_account_tokens ws tx.from_acc (sender.tokens - amount)) dst
             (recv.tokens + amount)) := by
      simp [Transaction.execute, hrec, h0, hdst, hfrom, hca, hcs]
    rw [hmain]
    refine ⟨rfl, ?_, ?_, ?_⟩
    · rw [get_account_by_id_set_ne _ dst tx.from_acc _ (fun h => hne h.symm)]
      exact get_account_by_id_set_self ws tx.from_acc (sender.tokens - amount) sender hfrom
    · have h1 : get_account_by_id (set_account_tokens ws tx.from_acc (sender.tokens - amount)) dst
          = some recv := by
        rw [get_account_by_id_set_ne _ tx.from_acc dst _ hne]
        exact hdst
      exact get_account_by_id_set_self _ dst (recv.tokens + amount) recv h1
    · intro id hid1 hid2
      rw [get_account_by_id_set_ne _ dst id _ hid1,
        get_account_by_id_set_ne _ tx.from_acc id _ hid2]

/-- Closed-form instance of the amended TransferTokens theorem: `a` (10
tokens) transfers 3 tokens to `b` (5 tokens); the call succeeds, `a` ends
with 7 and `b` with 8. -/
theorem c6_transfer_tokens_semantics_witness :
    (Transaction.execute
        { nonce := 0, from_acc := "a", created_at := 0,
          record := TransactionData.TransferTokens "b" 3, signature := none }
        [("a", { account_type := AccountType.User, tokens := 10 }),
         ("b", { account_type := AccountType.User, tokens := 5 })] false).1 = Except.ok () ∧
    get_account_by_id
        (Transaction.execute
          { nonce := 0, from_acc := "a", created_at := 0,
            record := TransactionData.TransferTokens "b" 3, signature := none }
          [("a", { account_type := AccountType.User, tokens := 10 }),
           ("b", { account_type := AccountType.User, tokens := 5 })] false).2 "a"
      = some { account_type := AccountType.User, tokens := 10 - 3 } ∧
    get_account_by_id
        (Transaction.execute
          { nonce := 0, from_acc := "a", created_at := 0,
            record := TransactionData.TransferTokens "b" 3, signature := none }
          [("a", { account_type := AccountType.User, tokens := 10 }),
           ("b", { account_type := AccountType.User, tokens := 5 })] false).2 "b"
      = some { account_type := AccountType.User, tokens := 5 + 3 } := by
  have h :=
    (c6_transfer_tokens_semantics
        [("a", { account_type := AccountType.User, tokens := 10 }),
         ("b", { account_type := AccountType.User, tokens := 5 })]
        { nonce := 0, from_acc := "a", created_at := 0,
          record := TransactionData.TransferTokens "b" 3, signature := none }
        "b" 3 false rfl).2.2
      { account_type := AccountType.User, tokens := 5 }
      { account_type := AccountType.User, tokens := 10 }
      (by decide) rfl rfl (by decide) (by decide)
  exact ⟨h.1, h.2.1, h.2.2.1⟩

/-! ### Structure of append_block -/

/-- When the three structural checks pass, `append_block` is exactly the
execute-then-commit-or-rollback step. -/
theorem append_block_of_checks (digest : List (List Nat) → List Nat) (bc : Blockchain)
    (block : Block)
    (hv : Block.verify_own_hash digest block = true)
    (hp : block.prev_hash = bc.get_last_block_hash)
    (hc : block.transactions.length ≠ 0) :
    Blockchain.append_block digest bc block =
      (match executeTransactions (bc.len == 0) block.transactions 0 bc.accounts with
       | Except.error (i, err) =>
         (Except.error ("Could not execute transaction " ++ toString (i + 1) ++ " due to `" ++
           err ++ "`. Rolling back (Code: 38203984)"), { bc with accounts := bc.accounts })
       | Except.ok st =>
         (Except.ok (), { bc with accounts := st, blocks := bc.blocks ++ [block] })) := by
  have hv' : (!(Block.verify_own_hash digest block)) = false := by simp [hv]
  have hp' : (!(block.prev_hash == bc.get_last_block_hash)) = false := by simp [hp]
  have hc' : (block.get_transaction_count == 0) = false := by
    simpa [Block.get_transaction_count] using hc
  simp only [Blockchain.append_block, hv', hp', hc', Bool.false_eq_true, if_false]

/-- The call `append_block` either succeeds or returns the caller's state untouched
(the snapshot restore makes the rolled-back state literally the old one). -/
theorem append_block_state_of_not_ok (digest : List (List Nat) → List Nat)
    (bc : Blockchain) (block : Block) :
    (Blockchain.append_block digest bc block).1 = Except.ok () ∨
    (Blockchain.append_block digest bc block).2 = bc := by
  simp only [Blockchain.append_block]
  split
  · exact Or.inr rfl
  · split
    · exact Or.inr rfl
    · split
      · exact Or.inr rfl
      · split
        · exact Or.inr rfl
        · exact Or.inl rfl

/-! ### C1 — block-level atomicity of append_block -/

/-- C1: if the structural checks pass but some transaction fails (the first
failure sitting at 0-based index `i` with cause `e`), `append_block` leaves
the accounts map and the blocks sequence unchanged and reports the failing
transaction's 1-based position `i + 1` together with the cause. -/
theorem c1_append_block_atomicity (digest : List (List Nat) → List Nat)
    (bc : Blockchain) (block : Block) (i : Nat) (e : String)
    (hv : Block.verify_own_hash digest block = true)
    (hp : block.prev_hash = bc.get_last_block_hash)
    (hc : block.transactions.length ≠ 0)
    (hrun : executeTransactions (bc.len == 0) block.transactions 0 bc.accounts
      = Except.error (i, e)) :
    (Blockchain.append_block digest bc block).1 =
      Except.error ("Could not execute transaction " ++ toString (i + 1) ++ " due to `" ++ e ++
        "`. Rolling back (Code: 38203984)") ∧
    (Blockchain.append_block digest bc block).2.accounts = bc.accounts ∧
    (Blockchain.append_block digest bc block).2.blocks = bc.blocks := by
  rw [append_block_of_checks digest bc block hv hp hc, hrun]
  exact ⟨rfl, rfl, rfl⟩

/-- Closed-form instance of the atomicity theorem: appending a block whose
only transaction is unimplemented fails at position 1 and changes nothing. -/
theorem c1_append_block_atomicity_witness :
    (Blockchain.append_block digestW Blockchain.new blockBadW).1 =
      Except.error ("Could not execute transaction " ++ toString (0 + 1) ++ " due to `" ++
        "Unknown Transaction type (not implemented) (Code: 487289724389)" ++
        "`. Rolling back (Code: 38203984)") ∧
    (Blockchain.append_block digestW Blockchain.new blockBadW).2.accounts =
      Blockchain.new.accounts ∧
    (Blockchain.append_block digestW Blockchain.new blockBadW).2.blocks =
      Blockchain.new.blocks :=
  c1_append_block_atomicity digestW Blockchain.new blockBadW 0
    "Unknown Transaction type (not implemented) (Code: 487289724389)"
    rfl rfl (by decide) rfl

/-! ### C7 — genesis-only minting -/

/-- Outside the initial block, a `CreateTokens` transaction always fails. -/
theorem execute_create_tokens_nongenesis_err (ws : Accounts) (tx : Transaction)
    (receiver : String) (amount : Nat)
    (hrec : tx.record = TransactionData.CreateTokens receiver amount) :
    ∃ e, (Transaction.execute tx ws false).1 = Except.error e := by
  by_cases hf : (get_account_by_id ws tx.from_acc).isNone
  · exact ⟨"Account does not exist (Code: 93482390)", by simp [Transaction.execute, hf]⟩
  · exact ⟨"Token creation is only available on initial creation (Code: 2394233)",
      by simp [Transaction.execute, hf, hrec]⟩

/-- A run of the transaction loop outside genesis that succeeds contains no
`CreateTokens` record. -/
theorem executeTransactions_ok_no_create (ts : List Transaction) :
    ∀ (i : Nat) (st st' : Accounts),
    executeTransactions false ts i st = Except.ok st' →
    ∀ t ∈ ts, ∀ r a, t.record ≠ TransactionData.CreateTokens r a := by
  induction ts with
  | nil => intro i st st' _ t ht; cases ht
  | cons t0 ts ih =>
    intro i st st' h t ht r a hrec
    cases hres : Transaction.execute t0 st false with
    | mk fst snd =>
      cases fst with
      | error e =>
        rw [executeTransactions, hres] at h
        cases h
      | ok u =>
        rw [executeTransactions, hres] at h
        rcases List.mem_cons.mp ht with rfl | ht'
        · obtain ⟨e, he⟩ := execute_create_tokens_nongenesis_err st t r a hrec
          rw [hres] at he
          cases he
        · exact ih (i + 1) snd st' h t ht' r a hrec

/-- C7: outside the genesis block a `CreateTokens` transaction is always
rejected with an error, and a non-first block containing one is never
appended (the chain is left unchanged). -/
theorem c7_genesis_only_minting :
    (∀ (ws : Accounts) (tx : Transaction) (receiver : String) (amount : Nat),
      tx.record = TransactionData.CreateTokens receiver amount →
      ∃ e, (Transaction.execute tx ws false).1 = Except.error e) ∧
    (∀ (digest : List (List Nat) → List Nat) (bc : Blockchain) (block : Block),
      bc.blocks ≠ [] →
      (∃ t ∈ block.transactions, ∃ r a, t.record = TransactionData.CreateTokens r a) →
      (Blockchain.append_block digest bc block).1 ≠ Except.ok () ∧
      (Blockchain.append_block digest bc block).2.blocks = bc.blocks) := by
  refine ⟨execute_create_tokens_nongenesis_err, ?_⟩
  intro digest bc block hne hex
  have hlen : bc.blocks.length ≠ 0 := fun h => hne (List.length_eq_zero.mp h)
  have hg : (bc.len == 0) = false := beq_eq_false_iff_ne.mpr hlen
  have hstep : (Blockchain.append_block digest bc block).1 ≠ Except.ok () := by
    by_cases hv : Block.verify_own_hash digest block
    · by_cases hp : block.prev_hash = bc.get_last_block_hash
      · by_cases hc : block.transactions.length = 0
        · have hc' : (block.get_transaction_count == 0) = true := by
            simpa [Block.get_transaction_count] using hc
          simp [Blockchain.append_block, hv, hp, hc']
        · rw [append_block_of_checks digest bc block hv hp hc]
          cases hrun : executeTransactions (bc.len == 0) block.transactions 0 bc.accounts with
          | ok st =>
            exfalso
            rw [hg] at hrun
            obtain ⟨t, ht, r, a, hr⟩ := hex
            exact executeTransactions_ok_no_create block.transactions 0 bc.accounts st hrun
              t ht r a hr
          | error p =>
            obtain ⟨i, e⟩ := p
            simp
      · have hp' : (!(block.prev_hash == bc.get_last_block_hash)) = true := by simp [hp]
        simp [Blockchain.append_block, hv, hp']
    · have hv' : Block.verify_own_hash digest block = false := by
        revert hv; cases Block.verify_own_hash digest block <;> simp
      simp [Blockchain.append_block, hv']
  refine ⟨hstep, ?_⟩
  rcases append_block_state_of_not_ok digest bc block with h | h
  · exact absurd h hstep
  · rw [h]

/-! ### The concrete digest is collision-free -/

theorem lpJoin_inj : ∀ (a b : List (List Nat)), a.length = b.length →
    lpJoin a = lpJoin b → a = b := by
  intro a
  induction a with
  | nil =>
    intro b hlen _
    cases b with
    | nil => rfl
    | cons c b => cases hlen
  | cons c a ih =>
    intro b hlen hj
    cases b with
    | nil => cases hlen
    | cons c' b =>
      simp only [lpJoin, List.map_cons, List.flatten_cons, List.cons_append,
        List.cons.injEq] at hj
      obtain ⟨hlen', hj'⟩ := hj
      obtain ⟨hc, hrest⟩ := List.append_inj hj' hlen'
      subst hc
      have : a = b := ih b (by simpa using hlen) (by simpa [lpJoin] using hrest)
      rw [this]

theorem digestW_injective : Function.Injective digestW := by
  intro a b h
  simp only [digestW, List.cons.injEq] at h
  exact lpJoin_inj a b h.1 h.2

/-! ### Block hash integrity -/

/-- The check `verify_own_hash` holds exactly when the stored hash equals the
rendering of the recomputed hash. -/
theorem verify_own_hash_true_iff (digest : List (List Nat) → List Nat) (b : Block) :
    Block.verify_own_hash digest b = true ↔
      b.hash = some (byte_vector_to_string (Block.calculate_hash digest b)) := by
  unfold Block.verify_own_hash
  cases b.hash <;> simp

/-- Recomputing the stored hash makes `verify_own_hash` true (the hash field
does not feed the hash computation). -/
theorem verify_own_hash_update_hash (digest : List (List Nat) → List Nat) (b : Block) :
    Block.verify_own_hash digest (Block.update_hash digest b) = true := by
  simp [Block.verify_own_hash, Block.update_hash, Block.calculate_hash]

/-- Replacing a list element by one with a different image changes the
mapped list. -/
theorem map_set_ne {α β : Type} (f : α → β) :
    ∀ (l : List α) (j : Nat) (hj : j < l.length) (a : α),
    f a ≠ f (l.get ⟨j, hj⟩) → (l.set j a).map f ≠ l.map f := by
  intro l
  induction l with
  | nil => intro j hj; exact absurd hj (Nat.not_lt_zero j)
  | cons x l ih =>
    intro j hj a hne heq
    cases j with
    | zero =>
      simp only [List.set_cons_zero, List.map_cons, List.cons.injEq] at heq
      exact hne (by simpa using heq.1)
    | succ j =>
      simp only [List.set_cons_succ, List.map_cons, List.cons.injEq] at heq
      exact ih j (by simpa using hj) a (by simpa using hne) heq.2

/-- With a collision-free digest, changing the hash of one contained
transaction changes the block's recomputed hash. -/
theorem calculate_hash_ne_of_set (digest : List (List Nat) → List Nat)
    (hinj : Function.Injective digest) (b : Block) (j : Nat)
    (hj : j < b.transactions.length) (t' : Transaction)
    (ht : Transaction.calculate_hash digest t'
      ≠ Transaction.calculate_hash digest (b.transactions.get ⟨j, hj⟩)) :
    Block.calculate_hash digest { b with transactions := b.transactions.set j t' }
      ≠ Block.calculate_hash digest b := by
  intro heq
  simp only [Block.calculate_hash] at heq
  have harg := hinj heq
  have h2 := List.append_inj_left harg (by simp)
  exact map_set_ne (Transaction.calculate_hash digest) b.transactions j hj t' ht h2

/-! ### C5 — hash self-consistency of Block -/

/-- C5: immediately after `add_transaction` or `set_nonce` the block's
`verify_own_hash` is true; replacing a contained transaction by one whose
computed hash differs, without recomputing the stored hash, makes
`verify_own_hash` false (stated for a collision-free digest). -/
theorem c5_hash_self_consistency (digest : List (List Nat) → List Nat)
    (hinj : Function.Injective digest) (b : Block) :
    (∀ t : Transaction,
      Block.verify_own_hash digest (Block.add_transaction digest b t) = true) ∧
    (∀ n : Nat, Block.verify_own_hash digest (Block.set_nonce digest b n) = true) ∧
    (∀ (j : Nat) (hj : j < b.transactions.length) (t' : Transaction),
      Block.verify_own_hash digest b = true →
      Transaction.calculate_hash digest t'
        ≠ Transaction.calculate_hash digest (b.transactions.get ⟨j, hj⟩) →
      Block.verify_own_hash digest { b with transactions := b.transactions.set j t' }
        = false) := by
  refine ⟨fun t => verify_own_hash_update_hash digest _,
    fun n => verify_own_hash_update_hash digest _, ?_⟩
  intro j hj t' hver ht
  have hhash := (verify_own_hash_true_iff digest b).mp hver
  have hne := calculate_hash_ne_of_set digest hinj b j hj t' ht
  rw [← Bool.not_eq_true, verify_own_hash_true_iff]
  intro hcontra
  have hcontra' : b.hash
      = some (byte_vector_to_string (Block.calculate_hash digest
          { b with transactions := b.transactions.set j t' })) := hcontra
  exact hne (Option.some.inj (hhash.symm.trans hcontra')).symm

/-- Closed-form instance of the hash self-consistency theorem on the
concrete genesis block: appends and nonce updates re-verify; overwriting the
minted amount of its second transaction in place does not. -/
theorem c5_hash_self_consistency_witness :
    Block.verify_own_hash digestW (Block.add_transaction digestW genesisW txBadW) = true ∧
    Block.verify_own_hash digestW (Block.set_nonce digestW genesisW 7) = true ∧
    Block.verify_own_hash digestW (tamperBlock genesisW 1 100000000000) = false := by
  have h := c5_hash_self_consistency digestW digestW_injective genesisW
  refine ⟨h.1 txBadW, h.2.1 7, ?_⟩
  exact h.2.2 1 (by decide)
    (tamperTx 100000000000 (genesisW.transactions.get ⟨1, by decide⟩)) (by decide) (by decide)

/-- Closed-form instance of the genesis-only-minting theorem: a mint block
on top of the one-block scenario chain is rejected and the chain is left
with its single block. -/
theorem c7_genesis_only_minting_witness :
    (Blockchain.append_block digestW bcW1 blockMintW).1 ≠ Except.ok () ∧
    (Blockchain.append_block digestW bcW1 blockMintW).2.blocks = bcW1.blocks :=
  c7_genesis_only_minting.2 digestW bcW1 blockMintW (by decide)
    ⟨Transaction.new "alice" (TransactionData.CreateTokens "alice" 5) 0 30, by decide,
      "alice", 5, rfl⟩

/-! ### C8 — the signature audit -/

/-- The signature verification stub returns false on every transaction. -/
theorem check_signature_false (tx : Transaction) : Transaction.check_signature tx = false := by
  unfold Transaction.check_signature
  split <;> rfl

/-- The signature loop accepts a transaction list exactly when none of its
transactions is signed. -/
theorem checkTransactionSignatures_ok_iff (i : Nat) :
    ∀ (ts : List Transaction) (j : Nat),
    checkTransactionSignatures i ts j = Except.ok () ↔ ∀ t ∈ ts, t.is_signed = false := by
  intro ts
  induction ts with
  | nil => intro j; simp [checkTransactionSignatures]
  | cons t ts ih =>
    intro j
    rw [checkTransactionSignatures]
    rw [check_signature_false t]
    cases hs : t.is_signed with
    | true => simp [hs]
    | false => simpa [hs] using ih (j + 1)

/-- Every error of the signature loop carries the invalid-signature message
for the surrounding block. -/
theorem checkTransactionSignatures_error_shape (i : Nat) :
    ∀ (ts : List Transaction) (j0 : Nat) (e : String),
    checkTransactionSignatures i ts j0 = Except.error e →
    ∃ j : Nat, e = "Transaction #" ++ toString j ++ " for Block #" ++ toString (i + 1) ++
      " has an invalid signature (Code: 4398239048)" := by
  intro ts
  induction ts with
  | nil => intro j0 e h; cases h
  | cons t ts ih =>
    intro j0 e h
    rw [checkTransactionSignatures, check_signature_false t] at h
    cases hs : t.is_signed with
    | true =>
      rw [hs] at h
      simp only [Bool.true_and, Bool.not_false, if_true] at h
      exact ⟨j0 + 1, (Except.error.inj h).symm⟩
    | false =>
      rw [hs] at h
      simp only [Bool.false_and, Bool.false_eq_true, if_false] at h
      exact ih (j0 + 1) e h

/-- A chain containing a signed transaction makes the signature-only scan
fail with the invalid-signature message. -/
theorem sigScanBlocks_error_of_signed :
    ∀ (l : List Block) (i : Nat),
    (∃ b ∈ l, ∃ t ∈ b.transactions, t.is_signed = true) →
    ∃ j k : Nat, sigScanBlocks i l = Except.error
      ("Transaction #" ++ toString j ++ " for Block #" ++ toString k ++
       " has an invalid signature (Code: 4398239048)") := by
  intro l
  induction l with
  | nil => intro i h; obtain ⟨b, hb, _⟩ := h; cases hb
  | cons b rest ih =>
    intro i hex
    cases hsig : checkTransactionSignatures i b.transactions 0 with
    | error e =>
      obtain ⟨j, rfl⟩ := checkTransactionSignatures_error_shape i b.transactions 0 e hsig
      exact ⟨j, i + 1, by rw [sigScanBlocks, hsig]⟩
    | ok u =>
      obtain ⟨⟩ := u
      have hall := (checkTransactionSignatures_ok_iff i b.transactions 0).mp hsig
      obtain ⟨b', hb', t, ht, hts⟩ := hex
      rcases List.mem_cons.mp hb' with rfl | hb''
      · rw [hall t ht] at hts
        cases hts
      · obtain ⟨j, k, hrest⟩ := ih (i + 1) ⟨b', hb'', t, ht, hts⟩
        exact ⟨j, k, by rw [sigScanBlocks, hsig]; exact hrest⟩

/-- A chain of entirely unsigned transactions passes the signature-only
scan. -/
theorem sigScanBlocks_ok_of_unsigned :
    ∀ (l : List Block) (i : Nat),
    (∀ b ∈ l, ∀ t ∈ b.transactions, t.is_signed = false) →
    sigScanBlocks i l = Except.ok () := by
  intro l
  induction l with
  | nil => intro i _; rfl
  | cons b rest ih =>
    intro i hall
    rw [sigScanBlocks,
      (checkTransactionSignatures_ok_iff i b.transactions 0).mpr
        (fun t ht => hall b (List.mem_cons_self b rest) t ht)]
    exact ih (i + 1) (fun b' hb' => hall b' (List.mem_cons_of_mem b hb'))

/-- When every block verifies its own hash and the linkage predicate holds,
the audit reduces to the signature-only scan. -/
theorem checkValidityGo_eq_sigScan (digest : List (List Nat) → List Nat) :
    ∀ (l : List Block) (i : Nat) (prev : Option Block),
    (∀ b ∈ l, Block.verify_own_hash digest b = true) →
    linksFromB prev i l = true →
    checkValidityGo digest prev i l = some (sigScanBlocks i l) := by
  intro l
  induction l with
  | nil => intro i prev _ _; rfl
  | cons b rest ih =>
    intro i prev hv hlink
    have hvb : Block.verify_own_hash digest b = true := hv b (List.mem_cons_self b rest)
    simp only [linksFromB, Bool.and_eq_true] at hlink
    obtain ⟨hcond, hrest⟩ := hlink
    have hlc : linkageCheck prev i b = some (Except.ok ()) := by
      by_cases hi : i = 0
      · subst hi
        have hnone : b.prev_hash = none := by simpa using hcond
        simp [linkageCheck, hnone]
      · rw [if_neg hi] at hcond
        cases prev with
        | none => cases hcond
        | some pb =>
          simp only [Bool.and_eq_true, decide_eq_true_eq, Bool.not_eq_true',
            decide_eq_false_iff_not] at hcond
          obtain ⟨hph, hpbh⟩ := hcond
          cases hpb : pb.hash with
          | none => exact absurd hpb hpbh
          | some pha =>
            have hbp : b.prev_hash = some pha := by rw [hph, hpb]
            simp [linkageCheck, hi, hbp, hpb]
    rw [checkValidityGo, hvb]
    simp only [Bool.not_true, Bool.false_eq_true, if_false, hlc]
    cases hsig : checkTransactionSignatures i b.transactions 0 with
    | error e => rw [sigScanBlocks, hsig]
    | ok u =>
      obtain ⟨⟩ := u
      rw [sigScanBlocks, hsig]
      exact ih (i + 1) (some b) (fun b' hb' => hv b' (List.mem_cons_of_mem b hb')) hrest

/-- C8: the signature stub always fails, so — on a chain whose hash and
linkage checks pass — `check_validity` rejects with the invalid-signature
error as soon as some transaction is signed, and never rejects a chain of
unsigned transactions on signature grounds (it returns success). -/
theorem c8_signature_audit (digest : List (List Nat) → List Nat) (bc : Blockchain)
    (hv : ∀ b ∈ bc.blocks, Block.verify_own_hash digest b = true)
    (hlink : linksFromB none 0 bc.blocks = true) :
    (∀ tx : Transaction, Transaction.check_signature tx = false) ∧
    ((∃ b ∈ bc.blocks, ∃ t ∈ b.transactions, t.is_signed = true) →
      ∃ j k : Nat, Blockchain.check_validity digest bc = some (Except.error
        ("Transaction #" ++ toString j ++ " for Block #" ++ toString k ++
         " has an invalid signature (Code: 4398239048)"))) ∧
    ((∀ b ∈ bc.blocks, ∀ t ∈ b.transactions, t.is_signed = false) →
      Blockchain.check_validity digest bc = some (Except.ok ())) := by
  have hgo := checkValidityGo_eq_sigScan digest bc.blocks 0 none hv hlink
  refine ⟨check_signature_false, ?_, ?_⟩
  · intro hex
    obtain ⟨j, k, hscan⟩ := sigScanBlocks_error_of_signed bc.blocks 0 hex
    exact ⟨j, k, by rw [Blockchain.check_validity, hgo, hscan]⟩
  · intro hall
    rw [Blockchain.check_validity, hgo, sigScanBlocks_ok_of_unsigned bc.blocks 0 hall]

/-- Closed-form instance of the signature-audit theorem: the stub rejects
the concrete signed transaction; the one-block chain holding it fails the
audit with the invalid-signature error; the unsigned two-block scenario
chain passes the audit. -/
theorem c8_signature_audit_witness :
    Transaction.check_signature txSignedW = false ∧
    (∃ j k : Nat, Blockchain.check_validity digestW bcSignedW = some (Except.error
      ("Transaction #" ++ toString j ++ " for Block #" ++ toString k ++
       " has an invalid signature (Code: 4398239048)"))) ∧
    Blockchain.check_validity digestW bcW2 = some (Except.ok ()) := by
  refine ⟨(c8_signature_audit digestW bcSignedW (by decide) (by decide)).1 txSignedW, ?_, ?_⟩
  · exact (c8_signature_audit digestW bcSignedW (by decide) (by decide)).2.1
      ⟨blockSignedW, by decide, txSignedW, by decide, rfl⟩
  · exact (c8_signature_audit digestW bcW2 (by decide) (by decide)).2.2 (by decide)

/-! ### C3 — the linkage invariant of reachable chains -/

/-- A successful `append_block` verified the block's hash, checked its
linkage, required a transaction, and appended it at the end. -/
theorem append_block_ok_spec (digest : List (List Nat) → List Nat)
    (bc : Blockchain) (block : Block)
    (hok : (Blockchain.append_block digest bc block).1 = Except.ok ()) :
    Block.verify_own_hash digest block = true ∧
    block.prev_hash = bc.get_last_block_hash ∧
    block.transactions ≠ [] ∧
    (Blockchain.append_block digest bc block).2.blocks = bc.blocks ++ [block] := by
  by_cases hv : Block.verify_own_hash digest block
  · by_cases hp : block.prev_hash = bc.get_last_block_hash
    · by_cases hc : block.transactions.length = 0
      · exfalso
        have hv' : (!(Block.verify_own_hash digest block)) = false := by simp [hv]
        have hp' : (!(block.prev_hash == bc.get_last_block_hash)) = false := by simp [hp]
        have hc' : (block.get_transaction_count == 0) = true := by
          simpa [Block.get_transaction_count] using hc
        simp [Blockchain.append_block, hv', hp', hc'] at hok
      · refine ⟨hv, hp, fun hnil => hc (by simp [hnil]), ?_⟩
        rw [append_block_of_checks digest bc block hv hp hc] at hok ⊢
        cases hrun : executeTransactions (bc.len == 0) block.transactions 0 bc.accounts with
        | error p =>
          obtain ⟨i, e⟩ := p
          rw [hrun] at hok
          exact Except.noConfusion hok
        | ok st =>
          exact rfl
    · exfalso
      have hv' : (!(Block.verify_own_hash digest block)) = false := by simp [hv]
      have hp' : (!(block.prev_hash == bc.get_last_block_hash)) = true := by simp [hp]
      simp [Blockchain.append_block, hv', hp'] at hok
  · exfalso
    have hvf : Block.verify_own_hash digest block = false := by
      revert hv; cases Block.verify_own_hash digest block <;> simp
    simp [Blockchain.append_block, hvf] at hok

/-- The head hash of a non-empty chain is the stored hash of its last
block. -/
theorem get_last_block_hash_eq (bc : Blockchain)
    (hlt : bc.blocks.length - 1 < bc.blocks.length) :
    bc.get_last_block_hash = (bc.blocks.get ⟨bc.blocks.length - 1, hlt⟩).hash := by
  unfold Blockchain.get_last_block_hash
  rw [List.getLast?_eq_getElem?, List.getElem?_eq_getElem hlt]
  simp [List.get_eq_getElem]

theorem get_append_singleton_lt {α : Type} (l : List α) (x : α) (i : Nat)
    (h1 : i < l.length) (h2 : i < (l ++ [x]).length) :
    (l ++ [x]).get ⟨i, h2⟩ = l.get ⟨i, h1⟩ := by
  simp [List.get_eq_getElem, List.getElem_append_left h1]

theorem get_append_singleton_last {α : Type} (l : List α) (x : α)
    (h : l.length < (l ++ [x]).length) :
    (l ++ [x]).get ⟨l.length, h⟩ = x := by
  simp [List.get_eq_getElem]

/-- C3: every chain built from `Blockchain::new` by successful
`append_block` calls has `blocks[0].prev_hash = None` and, for every later
block, `blocks[i+1].prev_hash = blocks[i].hash`. -/
theorem c3_linkage_invariant (digest : List (List Nat) → List Nat) (bc : Blockchain)
    (h : Reachable digest bc) :
    (∀ b0 : Block, bc.blocks[0]? = some b0 → b0.prev_hash = none) ∧
    (∀ (i : Nat) (bi bn : Block), bc.blocks[i]? = some bi →
      bc.blocks[i + 1]? = some bn → bn.prev_hash = bi.hash) := by
  induction h with
  | new =>
    constructor
    · intro b0 h0
      simp [Blockchain.new] at h0
    · intro i bi bn hbi hbn
      simp [Blockchain.new] at hbi
  | append bc b hok hr ih =>
    obtain ⟨hv, hp, hnil, hblocks⟩ := append_block_ok_spec digest bc b hok
    rw [hblocks]
    constructor
    · intro b0 h0
      cases hbc : bc.blocks with
      | nil =>
        rw [hbc] at h0
        simp only [List.nil_append] at h0
        have hb0 : b0 = b := by
          exact (by simpa using h0 : b = b0).symm
        have hlast : bc.get_last_block_hash = none := by
          simp [Blockchain.get_last_block_hash, hbc]
        rw [hb0]
        exact hp.trans hlast
      | cons x rest =>
        have hlt : 0 < bc.blocks.length := by simp [hbc]
        rw [List.getElem?_append, if_pos hlt] at h0
        exact ih.1 b0 h0
    · intro i bi bn hbi hbn
      have hlen : i + 1 < (bc.blocks ++ [b]).length := (List.getElem?_eq_some.mp hbn).1
      by_cases hlt : i + 1 < bc.blocks.length
      · rw [List.getElem?_append, if_pos hlt] at hbn
        rw [List.getElem?_append, if_pos (Nat.lt_of_succ_lt hlt)] at hbi
        exact ih.2 i bi bn hbi hbn
      · have heq : i + 1 = bc.blocks.length := by
          simp only [List.length_append, List.length_singleton] at hlen
          omega
        have hi' : i < bc.blocks.length := by omega
        have hbn' : bn = b := by
          rw [List.getElem?_append, if_neg hlt, heq] at hbn
          exact (by simpa using hbn : b = bn).symm
        rw [List.getElem?_append, if_pos hi'] at hbi
        rw [hbn', hp, get_last_block_hash_eq bc (by omega)]
        have hbi' : bc.blocks.get ⟨bc.blocks.length - 1, by omega⟩ = bi := by
          have hidx : (⟨bc.blocks.length - 1, by omega⟩ : Fin bc.blocks.length)
              = ⟨i, hi'⟩ := Fin.ext (show bc.blocks.length - 1 = i by omega)
          rw [hidx]
          have := List.getElem?_eq_getElem hi'
          rw [this] at hbi
          simpa [List.get_eq_getElem] using hbi
        rw [hbi']

/-- The one-block scenario chain is reachable through `append_block`. -/
theorem bcW1_reachable : Reachable digestW bcW1 :=
  Reachable.append Blockchain.new genesisW rfl Reachable.new

/-- The two-block scenario chain is reachable through `append_block`. -/
theorem bcW2_reachable : Reachable digestW bcW2 :=
  Reachable.append bcW1 block2W rfl bcW1_reachable

/-- Closed-form instance of the linkage invariant on the concrete two-block
scenario chain built through `append_block`. -/
theorem c3_linkage_invariant_witness :
    bcW2.blocks[0]?.isSome = true ∧ bcW2.blocks[1]?.isSome = true ∧
    (∀ b0 : Block, bcW2.blocks[0]? = some b0 → b0.prev_hash = none) ∧
    (∀ bi bn : Block, bcW2.blocks[0]? = some bi → bcW2.blocks[1]? = some bn →
      bn.prev_hash = bi.hash) := by
  have h := c3_linkage_invariant digestW bcW2 bcW2_reachable
  exact ⟨by decide, by decide, h.1, fun bi bn hbi hbn => h.2 0 bi bn hbi hbn⟩

/-! ### C10 — committed blocks always carry a stored hash -/

/-- A block that verifies its own hash has its hash field set. -/
theorem verify_hash_isSome (digest : List (List Nat) → List Nat) (b : Block)
    (h : Block.verify_own_hash digest b = true) : b.hash.isSome = true := by
  rw [verify_own_hash_true_iff] at h
  simp [h]

/-- The linkage portion of the audit never panics when the predecessor
passed its own-hash check. -/
theorem linkageCheck_ne_none (prev : Option Block) (i : Nat) (b : Block)
    (hinv : i ≠ 0 → ∃ pb, prev = some pb ∧ pb.hash.isSome = true) :
    linkageCheck prev i b ≠ none := by
  by_cases hi : i = 0
  · unfold linkageCheck
    simp only [if_pos hi]
    split <;> simp
  · obtain ⟨pb, hpb, hhash⟩ := hinv hi
    subst hpb
    cases hbp : b.prev_hash with
    | none => simp [linkageCheck, hi, hbp]
    | some php =>
      cases hph : pb.hash with
      | none => rw [hph] at hhash; cases hhash
      | some pha =>
        by_cases hcmp : php = pha
        · simp [linkageCheck, hi, hbp, hph, hcmp]
        · simp [linkageCheck, hi, hbp, hph, hcmp]

/-- The full audit scan never panics, provided the predecessor invariant
holds at the entry point. -/
theorem checkValidityGo_ne_none (digest : List (List Nat) → List Nat) :
    ∀ (l : List Block) (i : Nat) (prev : Option Block),
    (i ≠ 0 → ∃ pb, prev = some pb ∧ pb.hash.isSome = true) →
    checkValidityGo digest prev i l ≠ none := by
  intro l
  induction l with
  | nil => intro i prev _; simp [checkValidityGo]
  | cons b rest ih =>
    intro i prev hinv
    rw [checkValidityGo]
    cases hv : Block.verify_own_hash digest b with
    | false => simp
    | true =>
      simp only [Bool.not_true, Bool.false_eq_true, if_false]
      cases hl : linkageCheck prev i b with
      | none => exact absurd hl (linkageCheck_ne_none prev i b hinv)
      | some r =>
        cases r with
        | error e => simp
        | ok u =>
          obtain ⟨⟩ := u
          cases hsig : checkTransactionSignatures i b.transactions 0 with
          | error e => simp
          | ok u' =>
            obtain ⟨⟩ := u'
            exact ih (i + 1) (some b)
              (fun _ => ⟨b, rfl, verify_hash_isSome digest b hv⟩)

/-- C10: on every chain reachable through `append_block`, all committed
blocks carry a stored hash, `get_last_block_hash` is `Some` on a non-empty
chain, and the audit's unwrap of the preceding block's stored hash cannot
panic (the panic-modelling `none` result is unreachable). -/
theorem c10_committed_blocks_have_hash (digest : List (List Nat) → List Nat)
    (bc : Blockchain) (h : Reachable digest bc) :
    (∀ b ∈ bc.blocks, b.hash.isSome = true) ∧
    (bc.blocks ≠ [] → (Blockchain.get_last_block_hash bc).isSome = true) ∧
    Blockchain.check_validity digest bc ≠ none := by
  have hall : ∀ b ∈ bc.blocks, b.hash.isSome = true := by
    induction h with
    | new => intro b hb; simp [Blockchain.new] at hb
    | append bc b hok hr ih =>
      obtain ⟨hv, _, _, hblocks⟩ := append_block_ok_spec digest bc b hok
      rw [hblocks]
      intro b' hb'
      rcases List.mem_append.mp hb' with h1 | h1
      · exact ih b' h1
      · rw [List.mem_singleton] at h1
        subst h1
        exact verify_hash_isSome digest b' hv
  refine ⟨hall, ?_, ?_⟩
  · intro hne
    cases hl : bc.blocks.getLast? with
    | none => exact absurd (List.getLast?_eq_none_iff.mp hl) hne
    | some lb =>
      have hmem : lb ∈ bc.blocks := by
        rw [List.getLast?_eq_getElem?] at hl
        exact List.getElem?_mem hl
      have := hall lb hmem
      simp [Blockchain.get_last_block_hash, hl, this]
  · exact checkValidityGo_ne_none digest bc.blocks 0 none (fun h0 => absurd rfl h0)

/-- Closed-form instance of the stored-hash theorem on the two-block
scenario chain. -/
theorem c10_committed_blocks_have_hash_witness :
    (Blockchain.get_last_block_hash bcW2).isSome = true ∧
    Blockchain.check_validity digestW bcW2 ≠ none := by
  have h := c10_committed_blocks_have_hash digestW bcW2 bcW2_reachable
  exact ⟨h.2.1 (by decide), h.2.2⟩

/-! ### C4 — tamper detection -/

/-- Overwriting the amount of a record that carries one changes the rendered
transaction tuple. -/
theorem txEncode_tamper_ne (tx : Transaction) (a' a0 : Nat)
    (ha : amountOf tx.record = some a0) (hne : a' ≠ a0) :
    txEncode (tamperTx a' tx) ≠ txEncode tx := by
  intro heq
  cases hrec : tx.record with
  | CreateUserAccount account => rw [hrec] at ha; cases ha
  | ChangeStoreValue key value => rw [hrec] at ha; cases ha
  | TransferTokens dst amt =>
    rw [hrec] at ha
    have ha0 : amt = a0 := by simpa [amountOf] using ha
    subst ha0
    simp only [txEncode, tamperTx, setAmount, hrec, encTxData, List.cons.injEq,
      true_and] at heq
    rw [List.cons_append, List.cons_append] at heq
    simp only [List.cons.injEq, true_and, List.append_assoc, List.singleton_append] at heq
    have := List.append_cancel_left heq
    simp only [List.cons.injEq] at this
    exact hne this.1
  | CreateTokens receiver amt =>
    rw [hrec] at ha
    have ha0 : amt = a0 := by simpa [amountOf] using ha
    subst ha0
    simp only [txEncode, tamperTx, setAmount, hrec, encTxData, List.cons.injEq,
      true_and] at heq
    rw [List.cons_append, List.cons_append] at heq
    simp only [List.cons.injEq, true_and, List.append_assoc, List.singleton_append] at heq
    have := List.append_cancel_left heq
    simp only [List.cons.injEq] at this
    exact hne this.1

/-- With a collision-free digest, the tamper changes the transaction's
computed hash. -/
theorem txhash_tamper_ne (digest : List (List Nat) → List Nat)
    (hinj : Function.Injective digest) (tx : Transaction) (a' a0 : Nat)
    (ha : amountOf tx.record = some a0) (hne : a' ≠ a0) :
    Transaction.calculate_hash digest (tamperTx a' tx)
      ≠ Transaction.calculate_hash digest tx := by
  intro heq
  have h2 := hinj heq
  simp only [List.cons.injEq, and_true] at h2
  exact txEncode_tamper_ne tx a' a0 ha hne h2

/-- The tamper `tamperBlock` at an in-range index is the explicit `List.set` form. -/
theorem tamperBlock_eq (b : Block) (j a' : Nat) (hj : j < b.transactions.length) :
    tamperBlock b j a' = { b with transactions := b.transactions.set j (tamperTx a' (b.transactions.get ⟨j, hj⟩)) } := by
  unfold tamperBlock
  rw [List.getElem?_eq_getElem hj]
  simp [List.get_eq_getElem]

/-- Replacing a contained transaction by one with a different computed hash,
without recomputing the stored hash, falsifies `verify_own_hash`. -/
theorem verify_own_hash_set_false (digest : List (List Nat) → List Nat)
    (hinj : Function.Injective digest) (b : Block) (j : Nat)
    (hj : j < b.transactions.length) (t' : Transaction)
    (hver : Block.verify_own_hash digest b = true)
    (ht : Transaction.calculate_hash digest t'
      ≠ Transaction.calculate_hash digest (b.transactions.get ⟨j, hj⟩)) :
    Block.verify_own_hash digest { b with transactions := b.transactions.set j t' } = false := by
  have hhash := (verify_own_hash_true_iff digest b).mp hver
  have hne := calculate_hash_ne_of_set digest hinj b j hj t' ht
  rw [← Bool.not_eq_true, verify_own_hash_true_iff]
  intro hcontra
  have hcontra' : b.hash = some (byte_vector_to_string (Block.calculate_hash digest { b with transactions := b.transactions.set j t' })) := hcontra
  exact hne (Option.some.inj (hhash.symm.trans hcontra')).symm

/-- The in-place amount tamper falsifies `verify_own_hash` on a block that
verified before. -/
theorem verify_tamperBlock_false (digest : List (List Nat) → List Nat)
    (hinj : Function.Injective digest) (b : Block) (j a' a0 : Nat)
    (hj : j < b.transactions.length)
    (ha : amountOf (b.transactions.get ⟨j, hj⟩).record = some a0) (hne : a' ≠ a0)
    (hv : Block.verify_own_hash digest b = true) :
    Block.verify_own_hash digest (tamperBlock b j a') = false := by
  rw [tamperBlock_eq b j a' hj]
  exact verify_own_hash_set_false digest hinj b j hj _ hv
    (txhash_tamper_ne digest hinj _ a' a0 ha hne)

/-- The in-place amount tamper changes the block's recomputed hash. -/
theorem calc_tamperBlock_ne (digest : List (List Nat) → List Nat)
    (hinj : Function.Injective digest) (b : Block) (j a' a0 : Nat)
    (hj : j < b.transactions.length)
    (ha : amountOf (b.transactions.get ⟨j, hj⟩).record = some a0) (hne : a' ≠ a0) :
    Block.calculate_hash digest (tamperBlock b j a') ≠ Block.calculate_hash digest b := by
  rw [tamperBlock_eq b j a' hj]
  exact calculate_hash_ne_of_set digest hinj b j hj _
    (txhash_tamper_ne digest hinj _ a' a0 ha hne)

/-- The tamper leaves signatures alone, so a block passing the signature
loop still passes it after the tamper. -/
theorem checkTransactionSignatures_tamper (i : Nat) (ts : List Transaction)
    (j a' : Nat) (t0 : Transaction) (ht0 : t0 ∈ ts)
    (hok : checkTransactionSignatures i ts 0 = Except.ok ()) :
    checkTransactionSignatures i (ts.set j (tamperTx a' t0)) 0 = Except.ok () := by
  rw [checkTransactionSignatures_ok_iff] at hok ⊢
  intro t ht
  rcases List.mem_or_eq_of_mem_set ht with h | h
  · exact hok t h
  · subst h
    have := hok t0 ht0
    simpa [tamperTx, Transaction.is_signed] using this

/-- Unfolding a successful audit of a two-block chain: both blocks verify,
the first points nowhere, the second points at the first's stored hash, and
both signature loops pass. -/
theorem check_validity_two_spec (digest : List (List Nat) → List Nat)
    (bc : Blockchain) (b0 b1 : Block) (hblocks : bc.blocks = [b0, b1])
    (hvalid : Blockchain.check_validity digest bc = some (Except.ok ())) :
    Block.verify_own_hash digest b0 = true ∧
    b0.prev_hash = none ∧
    checkTransactionSignatures 0 b0.transactions 0 = Except.ok () ∧
    Block.verify_own_hash digest b1 = true ∧
    b1.prev_hash = b0.hash ∧
    checkTransactionSignatures 1 b1.transactions 0 = Except.ok () := by
  rw [Blockchain.check_validity, hblocks] at hvalid
  cases hv0 : Block.verify_own_hash digest b0 with
  | false => exact absurd hvalid (by simp [checkValidityGo, hv0])
  | true =>
  cases hp0 : b0.prev_hash with
  | some x => exact absurd hvalid (by simp [checkValidityGo, hv0, linkageCheck, hp0])
  | none =>
  cases hs0 : checkTransactionSignatures 0 b0.transactions 0 with
  | error e => exact absurd hvalid (by simp [checkValidityGo, hv0, linkageCheck, hp0, hs0])
  | ok u =>
  obtain ⟨⟩ := u
  cases hv1 : Block.verify_own_hash digest b1 with
  | false => exact absurd hvalid (by simp [checkValidityGo, hv0, linkageCheck, hp0, hs0, hv1])
  | true =>
  cases hbp1 : b1.prev_hash with
  | none =>
    exact absurd hvalid (by simp [checkValidityGo, hv0, linkageCheck, hp0, hs0, hv1, hbp1])
  | some php =>
  cases hbh0 : b0.hash with
  | none =>
    exact absurd hvalid (by simp [checkValidityGo, hv0, linkageCheck, hp0, hs0, hv1, hbp1, hbh0])
  | some pha =>
  by_cases hcmp : php = pha
  · cases hs1 : checkTransactionSignatures 1 b1.transactions 0 with
    | error e =>
      exact absurd hvalid
        (by simp [checkValidityGo, hv0, linkageCheck, hp0, hs0, hv1, hbp1, hbh0, hcmp, hs1])
    | ok u' =>
      obtain ⟨⟩ := u'
      refine ⟨rfl, rfl, rfl, rfl, ?_, rfl⟩
      rw [hcmp]
  · exact absurd hvalid
      (by simp [checkValidityGo, hv0, linkageCheck, hp0, hs0, hv1, hbp1, hbh0, hcmp])

/-- Audit of a two-block chain whose first block fails its own-hash check. -/
theorem go_two_fail_first (digest : List (List Nat) → List Nat) (c0 c1 : Block)
    (hv : Block.verify_own_hash digest c0 = false) :
    checkValidityGo digest none 0 [c0, c1]
      = some (Except.error ("Stored hash for Block #" ++ toString (0 + 1) ++
        " does not match calculated hash (Code: 665234234)")) := by
  simp [checkValidityGo, hv]

/-- Audit of a two-block chain whose second block fails its own-hash
check. -/
theorem go_two_fail_second (digest : List (List Nat) → List Nat) (c0 c1 : Block)
    (hv0 : Block.verify_own_hash digest c0 = true) (hp0 : c0.prev_hash = none)
    (hs0 : checkTransactionSignatures 0 c0.transactions 0 = Except.ok ())
    (hv1 : Block.verify_own_hash digest c1 = false) :
    checkValidityGo digest none 0 [c0, c1]
      = some (Except.error ("Stored hash for Block #" ++ toString (1 + 1) ++
        " does not match calculated hash (Code: 665234234)")) := by
  simp [checkValidityGo, hv0, linkageCheck, hp0, hs0, hv1]

/-- Audit of a two-block chain whose second block points at a hash that is
not the first block's stored hash. -/
theorem go_two_link_fail (digest : List (List Nat) → List Nat) (c0 c1 : Block)
    (s0 s1 : List Nat)
    (hv0 : Block.verify_own_hash digest c0 = true) (hp0 : c0.prev_hash = none)
    (hs0 : checkTransactionSignatures 0 c0.transactions 0 = Except.ok ())
    (hv1 : Block.verify_own_hash digest c1 = true)
    (hc1p : c1.prev_hash = some s1) (hc0h : c0.hash = some s0) (hne : s1 ≠ s0) :
    checkValidityGo digest none 0 [c0, c1]
      = some (Except.error ("Block #" ++ toString 1 ++
        " is not connected to previous block (Hashes do not match. Should be `" ++
        renderHash s1 ++ "` but is `" ++ renderHash s0 ++ "`)")) := by
  simp [checkValidityGo, hv0, linkageCheck, hp0, hs0, hv1, hc1p, hc0h, hne]

/-- Audit of a correctly linked, correctly hashed, unsigned two-block
chain. -/
theorem go_two_ok (digest : List (List Nat) → List Nat) (c0 c1 : Block) (s : List Nat)
    (hv0 : Block.verify_own_hash digest c0 = true) (hp0 : c0.prev_hash = none)
    (hs0 : checkTransactionSignatures 0 c0.transactions 0 = Except.ok ())
    (hv1 : Block.verify_own_hash digest c1 = true)
    (hc1p : c1.prev_hash = some s) (hc0h : c0.hash = some s)
    (hs1 : checkTransactionSignatures 1 c1.transactions 0 = Except.ok ()) :
    checkValidityGo digest none 0 [c0, c1] = some (Except.ok ()) := by
  simp [checkValidityGo, hv0, linkageCheck, hp0, hs0, hv1, hc1p, hc0h, hs1]

/-- C4 (amended): on a valid two-block chain, tampering with the amount of
transaction `j` of block `k` in place makes `check_validity` fail with the
hash-mismatch error at that block; recomputing the tampered block's hash
instead moves the failure to the broken-linkage error at the following
block when the tampered block is the first one, while recomputing the last
block's hash makes `check_validity` succeed (stated for a collision-free
digest). -/
theorem c4_tamper_detection_amended (digest : List (List Nat) → List Nat)
    (hinj : Function.Injective digest) (bc : Blockchain) (b0 b1 bk : Block)
    (hblocks : bc.blocks = [b0, b1])
    (hvalid : Blockchain.check_validity digest bc = some (Except.ok ()))
    (k j a' a0 : Nat) (hbk : bc.blocks[k]? = some bk)
    (hj : j < bk.transactions.length)
    (ha : amountOf (bk.transactions.get ⟨j, hj⟩).record = some a0)
    (hne : a' ≠ a0) :
    Blockchain.check_validity digest (tamperChain bc k j a')
      = some (Except.error ("Stored hash for Block #" ++ toString (k + 1) ++
        " does not match calculated hash (Code: 665234234)")) ∧
    (k = 0 → ∃ p q : String,
      Blockchain.check_validity digest (updateHashAt digest (tamperChain bc 0 j a') 0)
        = some (Except.error ("Block #" ++ toString 1 ++
          " is not connected to previous block (Hashes do not match. Should be `" ++ p ++
          "` but is `" ++ q ++ "`)"))) ∧
    (k = 1 →
      Blockchain.check_validity digest (updateHashAt digest (tamperChain bc 1 j a') 1)
        = some (Except.ok ())) := by
  obtain ⟨hv0, hp0, hs0, hv1, hlink, hs1⟩ :=
    check_validity_two_spec digest bc b0 b1 hblocks hvalid
  have hbh0 := (verify_own_hash_true_iff digest b0).mp hv0
  have hc1p : b1.prev_hash
      = some (byte_vector_to_string (Block.calculate_hash digest b0)) :=
    hlink.trans hbh0
  match k, hbk with
  | 0, hbk =>
    have hbk0 : bk = b0 := by
      rw [hblocks] at hbk
      exact (by simpa using hbk : b0 = bk).symm
    subst hbk0
    have htb : (tamperChain bc 0 j a').blocks = [tamperBlock bk j a', b1] := by
      simp [tamperChain, hblocks]
    have hvtb : Block.verify_own_hash digest (tamperBlock bk j a') = false :=
      verify_tamperBlock_false digest hinj bk j a' a0 hj ha hne hv0
    refine ⟨?_, ?_, ?_⟩
    · rw [Blockchain.check_validity, htb]
      exact go_two_fail_first digest _ b1 hvtb
    · intro _
      have h2b : (updateHashAt digest (tamperChain bc 0 j a') 0).blocks
          = [Block.update_hash digest (tamperBlock bk j a'), b1] := by
        simp [updateHashAt, tamperChain, hblocks]
      have hvc0 : Block.verify_own_hash digest
          (Block.update_hash digest (tamperBlock bk j a')) = true :=
        verify_own_hash_update_hash digest _
      have hc0p : (Block.update_hash digest (tamperBlock bk j a')).prev_hash = none := by
        simp [Block.update_hash, tamperBlock]
        exact hp0
      have htrans : (Block.update_hash digest (tamperBlock bk j a')).transactions
          = bk.transactions.set j (tamperTx a' (bk.transactions.get ⟨j, hj⟩)) := by
        rw [tamperBlock_eq bk j a' hj]
        rfl
      have hsc0 : checkTransactionSignatures 0
          (Block.update_hash digest (tamperBlock bk j a')).transactions 0
          = Except.ok () := by
        rw [htrans]
        exact checkTransactionSignatures_tamper 0 bk.transactions j a' _
          (List.get_mem bk.transactions j hj) hs0
      have hc0h : (Block.update_hash digest (tamperBlock bk j a')).hash
          = some (byte_vector_to_string
              (Block.calculate_hash digest (tamperBlock bk j a'))) := rfl
      have hsne : byte_vector_to_string (Block.calculate_hash digest bk)
          ≠ byte_vector_to_string (Block.calculate_hash digest (tamperBlock bk j a')) :=
        fun h => calc_tamperBlock_ne digest hinj bk j a' a0 hj ha hne h.symm
      refine ⟨renderHash (byte_vector_to_string (Block.calculate_hash digest bk)),
        renderHash (byte_vector_to_string
          (Block.calculate_hash digest (tamperBlock bk j a'))), ?_⟩
      rw [Blockchain.check_validity, h2b]
      exact go_two_link_fail digest _ b1 _ _ hvc0 hc0p hsc0 hv1 hc1p hc0h hsne
    · intro h10
      cases h10
  | 1, hbk =>
    have hbk1 : bk = b1 := by
      rw [hblocks] at hbk
      exact (by simpa using hbk : b1 = bk).symm
    subst hbk1
    have htb : (tamperChain bc 1 j a').blocks = [b0, tamperBlock bk j a'] := by
      simp [tamperChain, hblocks]
    have hvtb : Block.verify_own_hash digest (tamperBlock bk j a') = false :=
      verify_tamperBlock_false digest hinj bk j a' a0 hj ha hne hv1
    refine ⟨?_, ?_, ?_⟩
    · rw [Blockchain.check_validity, htb]
      exact go_two_fail_second digest b0 _ hv0 hp0 hs0 hvtb
    · intro h01
      cases h01
    · intro _
      have h2b : (updateHashAt digest (tamperChain bc 1 j a') 1).blocks
          = [b0, Block.update_hash digest (tamperBlock bk j a')] := by
        simp [updateHashAt, tamperChain, hblocks]
      have hvc1 : Block.verify_own_hash digest
          (Block.update_hash digest (tamperBlock bk j a')) = true :=
        verify_own_hash_update_hash digest _
      have hcp : (Block.update_hash digest (tamperBlock bk j a')).prev_hash
          = some (byte_vector_to_string (Block.calculate_hash digest b0)) := by
        simp [Block.update_hash, tamperBlock]
        exact hc1p
      have htrans : (Block.update_hash digest (tamperBlock bk j a')).transactions
          = bk.transactions.set j (tamperTx a' (bk.transactions.get ⟨j, hj⟩)) := by
        rw [tamperBlock_eq bk j a' hj]
        rfl
      have hsc1 : checkTransactionSignatures 1
          (Block.update_hash digest (tamperBlock bk j a')).transactions 0
          = Except.ok () := by
        rw [htrans]
        exact checkTransactionSignatures_tamper 1 bk.transactions j a' _
          (List.get_mem bk.transactions j hj) hs1
      rw [Blockchain.check_validity, h2b]
      exact go_two_ok digest b0 _ _ hv0 hp0 hs0 hvc1 hcp hbh0 hsc1
  | (n + 2), hbk =>
    rw [hblocks] at hbk
    simp at hbk

/-- C4 counterexample: on the valid two-block scenario chain, tampering with
the amount inside the committed transaction of the *last* block and
recomputing that block's hash makes `check_validity` succeed — there is no
following block, so no broken-linkage error is reported, contradicting the
claim as stated. -/
theorem c4_counterexample_tamper_last_block :
    Blockchain.check_validity digestW bcW2 = some (Except.ok ()) ∧
    bcW2.blocks.length = 2 ∧
    (100 : Nat) ≠ 1 ∧
    Blockchain.check_validity digestW
      (updateHashAt digestW (tamperChain bcW2 1 0 100) 1) = some (Except.ok ()) := by
  exact ⟨rfl, by decide, by decide, rfl⟩

/-- Closed-form instance of the amended tamper-detection theorem: tampering
with either block of the concrete scenario chain (without recomputing)
yields the hash-mismatch error at that block, and recomputing the last
block's hash yields a passing audit. -/
theorem c4_tamper_detection_amended_witness :
    Blockchain.check_validity digestW (tamperChain bcW2 1 0 100)
      = some (Except.error ("Stored hash for Block #" ++ toString (1 + 1) ++
        " does not match calculated hash (Code: 665234234)")) ∧
    Blockchain.check_validity digestW (updateHashAt digestW (tamperChain bcW2 1 0 100) 1)
      = some (Except.ok ()) ∧
    Blockchain.check_validity digestW (tamperChain bcW2 0 1 999)
      = some (Except.error ("Stored hash for Block #" ++ toString (0 + 1) ++
        " does not match calculated hash (Code: 665234234)")) := by
  have h1 := c4_tamper_detection_amended digestW digestW_injective bcW2 genesisW block2W
    block2W rfl rfl 1 0 100 1 (by decide) (by decide) (by decide) (by decide)
  have h0 := c4_tamper_detection_amended digestW digestW_injective bcW2 genesisW block2W
    genesisW rfl rfl 0 1 999 100000000 (by decide) (by decide) (by decide) (by decide)
  exact ⟨h1.1, h1.2.2 rfl, h0.1⟩
